import Mathlib

/-!
Shallow embedding of the Funnel lead-CRM workflow engine
(`Backend/leads/models.py` and `Backend/leads/services.py`) and proofs of
the specified properties.

Modelling conventions:
* timestamps are `Nat` (the code only ever writes `datetime.now(UTC)`,
  passed in here as a `now` parameter);
* the Mongo collections are in-memory lists; `find_one` is "first match in
  insertion order", `update_one` updates the first matching document;
* Python runtime values appearing in validation are the inductive
  `PyValue`; a Python `TypeError` / `ValueError` / pydantic
  `ValidationError` is the inductive `PyErr`;
* `uuid.uuid4()` is an injected supply `uidSupply : Nat → String`
  (one fresh uid per instantiated task, by position).
-/

namespace Funnel

/-- `WorkItemTaskStatus` from models.py. -/
inductive WorkItemTaskStatus
  | pending
  | in_progress
  | completed
  | skipped
  | blocked
deriving DecidableEq

/-- `WorkItemStatus` from models.py. -/
inductive WorkItemStatus
  | pending
  | in_progress
  | completed
  | skipped
  | blocked
deriving DecidableEq

/-- `FieldType` from models.py. -/
inductive FieldType
  | string
  | integer
  | decimal
  | boolean
  | date
  | datetime
  | enum
  | array
  | document
deriving DecidableEq

/-- `ArrayItemType` from models.py. -/
inductive ArrayItemType
  | string
  | integer
  | decimal
  | boolean
  | date
  | datetime
  | enum
  | document
deriving DecidableEq

/-- `InputType` from models.py. -/
inductive InputType
  | text
  | textarea
  | number
  | dropdown
  | multi_select
  | radio
  | checkbox
  | date_picker
  | datetime_picker
  | email
  | phone
  | url
  | file_upload
deriving DecidableEq

/-- Python runtime values that reach the validation code: `None`, `int`,
`bool`, `float` (modelled as a rational), `str`. -/
inductive PyValue
  | none
  | int (n : Int)
  | bool (b : Bool)
  | float (q : ℚ)
  | str (s : String)
deriving DecidableEq

/-- Python-level failures raised by the engine: `TypeError` (unordered
comparison), `ValueError` carrying the offending field key, and pydantic
`ValidationError` from model construction. -/
inductive PyErr
  | typeError
  | valueError (field_key : String)
  | validationError
deriving DecidableEq

/-- Lexicographic comparison of char lists by code point (the order Python
uses on `str` and Mongo uses when sorting string keys). -/
def listLt : List Char → List Char → Bool
  | [], [] => false
  | [], _ :: _ => true
  | _ :: _, [] => false
  | a :: as, b :: bs =>
    if a.toNat < b.toNat then true
    else if b.toNat < a.toNat then false
    else listLt as bs

/-- String comparison via `listLt` on the underlying characters. -/
def strLt (s t : String) : Bool := listLt s.toList t.toList

/-- Python `isinstance(v, int)`: `bool` is a subclass of `int`. -/
def pyIsInstanceInt : PyValue → Bool
  | .int _ => true
  | .bool _ => true
  | _ => false

/-- Python `isinstance(v, (int, float))`. -/
def pyIsInstanceNum : PyValue → Bool
  | .int _ => true
  | .bool _ => true
  | .float _ => true
  | _ => false

/-- Python `isinstance(v, bool)`. -/
def pyIsInstanceBool : PyValue → Bool
  | .bool _ => true
  | _ => false

/-- Numeric view of a Python value (`bool` counts as 0/1), used by ordered
comparison. -/
def pyNum? : PyValue → Option ℚ
  | .int n => some (n : ℚ)
  | .bool b => some (if b then 1 else 0)
  | .float q => some q
  | _ => Option.none

/-- Python `a < b`: strings compare lexicographically, numbers numerically,
anything else (in particular `None` against anything) raises `TypeError`. -/
def pyLt : PyValue → PyValue → Except PyErr Bool
  | .str a, .str b => .ok (strLt a b)
  | a, b =>
    match pyNum? a, pyNum? b with
    | some x, some y => .ok (decide (x < y))
    | _, _ => .error .typeError

/-- Python `a > b`, which is `b < a` for every type combination involved. -/
def pyGt (a b : PyValue) : Except PyErr Bool := pyLt b a

/-- `FieldDefinition` from models.py; `validation_rules` is the open dict,
modelled as an association list. -/
structure FieldDefinition where
  field_key : String
  label : String
  field_type : FieldType
  input_type : InputType
  required : Bool := false
  options : List String := []
  default_value : Option String := Option.none
  validation_rules : List (String × PyValue) := []
  placeholder : String := ""
  help_text : String := ""
  order : Int := 0
  is_active : Bool := true
  array_item_type : Option ArrayItemType := Option.none
deriving DecidableEq

/-- Dict lookup `rules["k"]` / membership `"k" in rules`. -/
def lookupRule (rules : List (String × PyValue)) (k : String) : Option PyValue :=
  (rules.find? (fun p => p.1 == k)).map (fun p => p.2)

/-- `validate_field_value` from models.py, line by line: isinstance checks
for integer/decimal/boolean, then (when the rules dict is truthy) the
`min`/`max` ordered comparisons, then the required-non-None check. -/
def validate_field_value (fd : FieldDefinition) (value : PyValue) :
    Except PyErr Bool :=
  let typeCheck : Except PyErr Unit :=
    if fd.field_type = FieldType.integer then
      if pyIsInstanceInt value then .ok () else .error (.valueError fd.field_key)
    else if fd.field_type = FieldType.decimal then
      if pyIsInstanceNum value then .ok () else .error (.valueError fd.field_key)
    else if fd.field_type = FieldType.boolean then
      if pyIsInstanceBool value then .ok () else .error (.valueError fd.field_key)
    else .ok ()
  match typeCheck with
  | .error e => .error e
  | .ok _ =>
    let rulesCheck : Except PyErr Unit :=
      if fd.validation_rules.isEmpty then .ok ()
      else
        let minCheck : Except PyErr Unit :=
          match lookupRule fd.validation_rules "min" with
          | Option.none => .ok ()
          | some mn =>
            match pyLt value mn with
            | .error e => .error e
            | .ok true => .error (.valueError fd.field_key)
            | .ok false => .ok ()
        match minCheck with
        | .error e => .error e
        | .ok _ =>
          match lookupRule fd.validation_rules "max" with
          | Option.none => .ok ()
          | some mx =>
            match pyGt value mx with
            | .error e => .error e
            | .ok true => .error (.valueError fd.field_key)
            | .ok false => .ok ()
    match rulesCheck with
    | .error e => .error e
    | .ok _ =>
      if fd.required ∧ value = PyValue.none then .error (.valueError fd.field_key)
      else .ok true

/-- `FieldValueBase` from models.py. The source's field `variable` is a Lean
keyword, so it is called `varName` here. -/
structure FieldValueBase where
  varName : String
  field_type : FieldType
  original_value : String := ""
  value : PyValue := PyValue.none
deriving DecidableEq

/-- `TaskFieldValue` from models.py (same shape as the base). -/
abbrev TaskFieldValue := FieldValueBase

/-- `ConfigFieldValue` from models.py (same shape as the base). -/
abbrev ConfigFieldValue := FieldValueBase

/-- `WorkStageTask` from models.py (task template attached to a stage). -/
structure WorkStageTask where
  uid : String
  name : String
  description : Option String := Option.none
  required : Bool := false
  order : Int := 0
  is_active : Bool := true
  task_variables : List FieldDefinition := []
deriving DecidableEq

/-- `WorkItemTask` from models.py (task instance on a lead). -/
structure WorkItemTask where
  uid : String
  name : String
  description : Option String := Option.none
  template_id : String
  stage : String
  status : WorkItemTaskStatus := WorkItemTaskStatus.pending
  required : Bool := false
  order : Int := 0
  is_active : Bool := true
  task_variables : List FieldDefinition := []
  completed_at : Option Nat := Option.none
  completed_by : Option String := Option.none
  notes : String := ""
  field_values : List TaskFieldValue := []
deriving DecidableEq

/-- `WorkStage` from models.py. The Mongo `_id` is store plumbing and is
omitted; everything the engine reads is kept. -/
structure WorkStage where
  uid : String
  config : String
  name : String
  slug : String
  color : String := "#6B7280"
  description : Option String := Option.none
  order : Int := 0
  is_active : Bool := true
  allowed_next_stages : List String := []
  stage_tasks : List WorkStageTask := []
  created_at : Nat := 0
  updated_at : Nat := 0
deriving DecidableEq

/-- `Activity` from models.py; `activity_data` only ever receives string
values from the engine, so it is an association list of strings. -/
structure Activity where
  type : String
  subject : String
  description : Option String := Option.none
  performed_by : Option String := Option.none
  created_at : Nat := 0
  created_by : Option String := Option.none
  activity_data : List (String × String) := []
deriving DecidableEq

/-- `HistoryData` from models.py (stage transition history entry). -/
structure HistoryData where
  stage : String
  entered_at : Nat
  exited_at : Option Nat := Option.none
deriving DecidableEq

/-- `WorkItem` from models.py (the lead document); `_id` omitted as store
plumbing, open maps kept as association lists. -/
structure WorkItem where
  uid : String
  item_id : String
  current_stage : String
  status : WorkItemStatus := WorkItemStatus.pending
  name : String
  email : Option String := Option.none
  phone : Option String := Option.none
  config : String
  config_values : List ConfigFieldValue := []
  assigned_to : List String := []
  properties : List (String × PyValue) := []
  linked_entities : List (String × PyValue) := []
  history : List HistoryData := []
  tasks : List WorkItemTask := []
  activities : List Activity := []
  created_at : Nat := 0
  updated_at : Nat := 0
  created_by : Option String := Option.none
deriving DecidableEq

/-- The three collections the service touches; the configs collection is
untouched by the operations under verification and is omitted. -/
structure DB where
  leads : List WorkItem
  stages : List WorkStage
deriving DecidableEq

/-- `LeadService.get_lead`: `find_one` on uid is the first match in
insertion order. -/
def get_lead (db : DB) (uid : String) : Option WorkItem :=
  db.leads.find? (fun l => l.uid == uid)

/-- `LeadService.get_stage`. -/
def get_stage (db : DB) (uid : String) : Option WorkStage :=
  db.stages.find? (fun s => s.uid == uid)

/-- `LeadService.create_lead`: set timestamps, add the initial history entry
when history is empty and `current_stage` is truthy, add the CREATED
activity when there is none, insert. (uid/item_id generation happens before
this point and the validated lead arrives here with them set.) -/
def create_lead (db : DB) (lead0 : WorkItem) (now : Nat) : DB :=
  let lead1 := { lead0 with created_at := now, updated_at := now }
  let lead2 :=
    if lead1.history.isEmpty ∧ lead1.current_stage ≠ "" then
      { lead1 with history := lead1.history ++
          [{ stage := lead1.current_stage, entered_at := now }] }
    else lead1
  let lead3 :=
    if lead2.activities.isEmpty then
      { lead2 with activities := lead2.activities ++
          [{ type := "CREATED", subject := "Lead created",
             performed_by := lead2.created_by, created_at := now,
             created_by := lead2.created_by }] }
    else lead2
  { db with leads := db.leads ++ [lead3] }

/-- The `ValueError`s (and the one uncaught `AttributeError`) that
`transition_stage` can raise, with the data their messages carry. -/
inductive TransitionError
  | leadNotFound (uid : String)
  | stageNotFound (uid : String)
  | noneTypeAttributeError
  | transitionNotAllowed (fromName toName : String)
  | requiredTasksIncomplete (task_names : List String)
deriving DecidableEq

/-- `update_one({"uid": uid}, ...)`: apply `f` to the first lead whose uid
matches. -/
def updateFirstLead : List WorkItem → String → (WorkItem → WorkItem) → List WorkItem
  | [], _, _ => []
  | l :: rest, uid, f =>
    if l.uid == uid then f l :: rest else l :: updateFirstLead rest uid f

/-- The `WorkItemTask(...)` constructor call inside `transition_stage`. -/
def instantiateTask (uid : String) (stage_uid : String) (st : WorkStageTask) :
    WorkItemTask :=
  { uid := uid
    template_id := st.uid
    stage := stage_uid
    name := st.name
    description := st.description
    required := st.required
    order := st.order
    is_active := st.is_active
    task_variables := st.task_variables
    status := WorkItemTaskStatus.pending
    field_values := [] }

/-- `LeadService.transition_stage`, line by line. Checks run in source
order: lead lookup, current-stage lookup (unchecked), target-stage lookup
and check, then the membership test — which hits an `AttributeError` on
`None` when the current stage did not resolve — then the required-task
gate. On success the single compound update sets `current_stage`, `status`,
`updated_at` and the (closed) `history`, and pushes the new tasks and the
STAGE_CHANGE activity. The source also constructs
`new_history = HistoryData(stage=new_stage_uid, entered_at=now)` at this
point but never includes it in the update document, so no open history
entry for the new stage is ever written. -/
def transition_stage (db : DB) (lead_uid new_stage_uid : String)
    (comment : String) (performed_by : Option String)
    (now : Nat) (uidSupply : Nat → String) :
    Except TransitionError DB :=
  match get_lead db lead_uid with
  | Option.none => .error (.leadNotFound lead_uid)
  | some lead =>
    let current_stageOpt := get_stage db lead.current_stage
    match get_stage db new_stage_uid with
    | Option.none => .error (.stageNotFound new_stage_uid)
    | some new_stage =>
      match current_stageOpt with
      | Option.none => .error .noneTypeAttributeError
      | some current_stage =>
        if new_stage_uid ∉ current_stage.allowed_next_stages then
          .error (.transitionNotAllowed current_stage.name new_stage.name)
        else
          let required_tasks := lead.tasks.filter
            (fun t => t.required && !(t.status == WorkItemTaskStatus.completed))
          if ¬ required_tasks.isEmpty then
            .error (.requiredTasksIncomplete (required_tasks.map (fun t => t.name)))
          else
            let closedHistory := lead.history.map (fun h =>
              if h.stage == lead.current_stage && h.exited_at.isNone then
                { h with exited_at := some now }
              else h)
            let new_tasks := new_stage.stage_tasks.enum.map
              (fun p => instantiateTask (uidSupply p.1) new_stage_uid p.2)
            let activity : Activity :=
              { type := "STAGE_CHANGE"
                subject := "Lead moved to " ++ new_stage.name
                description := some comment
                performed_by := performed_by
                created_at := now
                created_by := performed_by
                activity_data := [("from_stage", current_stage.name),
                                  ("to_stage", new_stage.name),
                                  ("comment", comment)] }
            .ok { db with leads := updateFirstLead db.leads lead_uid (fun l =>
              { l with current_stage := new_stage_uid
                       status := WorkItemStatus.in_progress
                       updated_at := now
                       history := closedHistory
                       tasks := l.tasks ++ new_tasks
                       activities := l.activities ++ [activity] }) }

/-- One raw entry of the `field_values` list handed to `complete_task`: a
JSON dict whose keys may be absent or hold values of the wrong type. The
dict key `variable` is the Lean keyword, kept as `varName`. -/
structure RawFieldValue where
  varName : Option PyValue := Option.none
  field_typeRaw : Option PyValue := Option.none
  original_valueRaw : Option PyValue := Option.none
  valueRaw : Option PyValue := Option.none
deriving DecidableEq

/-- Coercion of a JSON string into the `FieldType` enum, as pydantic does
for a `str`-valued enum field. -/
def parseFieldType (s : String) : Option FieldType :=
  if s = "string" then some FieldType.string
  else if s = "integer" then some FieldType.integer
  else if s = "decimal" then some FieldType.decimal
  else if s = "boolean" then some FieldType.boolean
  else if s = "date" then some FieldType.date
  else if s = "datetime" then some FieldType.datetime
  else if s = "enum" then some FieldType.enum
  else if s = "array" then some FieldType.array
  else if s = "document" then some FieldType.document
  else Option.none

/-- Pydantic construction `TaskFieldValue(**fv)`: `variable` must be a
string, `field_type` a valid enum member, `original_value` a string when
given (default `""`), `value` anything (default `None`); a missing or
ill-typed required field fails the construction. -/
def parseTaskFieldValue (r : RawFieldValue) : Option TaskFieldValue :=
  match r.varName, r.field_typeRaw with
  | some (PyValue.str v), some (PyValue.str fts) =>
    match parseFieldType fts with
    | Option.none => Option.none
    | some ft =>
      match r.original_valueRaw with
      | Option.none =>
        some { varName := v, field_type := ft, original_value := "",
               value := r.valueRaw.getD PyValue.none }
      | some (PyValue.str ov) =>
        some { varName := v, field_type := ft, original_value := ov,
               value := r.valueRaw.getD PyValue.none }
      | some _ => Option.none
  | _, _ => Option.none

/-- The filter `{"uid": lead_uid, "tasks.uid": task_uid}`. -/
def leadTaskMatch (lead_uid task_uid : String) (l : WorkItem) : Bool :=
  l.uid == lead_uid && l.tasks.any (fun t => t.uid == task_uid)

/-- `update_one(filter, ...)` against an arbitrary filter: rewrite the first
matching document; the returned flag is `modified_count > 0`, i.e. whether
that document actually changed. -/
def updateFirstMatching :
    List WorkItem → (WorkItem → Bool) → (WorkItem → WorkItem) →
    List WorkItem × Bool
  | [], _, _ => ([], false)
  | l :: rest, p, f =>
    if p l then (f l :: rest, decide (f l ≠ l))
    else
      let r := updateFirstMatching rest p f
      (l :: r.1, r.2)

/-- The positional `tasks.$` update: rewrite the first task whose uid
matches. -/
def updateFirstTask :
    List WorkItemTask → String → (WorkItemTask → WorkItemTask) →
    List WorkItemTask
  | [], _, _ => []
  | t :: rest, uid, f =>
    if t.uid == uid then f t :: rest else t :: updateFirstTask rest uid f

/-- `LeadService.complete_task`: validate and construct every field value
first (any failure aborts the whole call with a pydantic ValidationError,
before any write), then one `update_one` keyed on the `(lead uid, task
uid)` pair that completes the matched task and appends a TASK_COMPLETED
activity, returning `modified_count > 0`. -/
def complete_task (db : DB) (lead_uid task_uid : String)
    (field_values : List RawFieldValue) (notes : String)
    (completed_by : Option String) (now : Nat) :
    Except PyErr (DB × Bool) :=
  match field_values.mapM parseTaskFieldValue with
  | Option.none => .error .validationError
  | some validated_values =>
    let activity : Activity :=
      { type := "TASK_COMPLETED", subject := "Task completed",
        performed_by := completed_by, created_at := now,
        created_by := completed_by,
        activity_data := [("task_uid", task_uid), ("notes", notes)] }
    let upd := updateFirstMatching db.leads (leadTaskMatch lead_uid task_uid)
      (fun l =>
        { l with
            tasks := updateFirstTask l.tasks task_uid (fun t =>
              { t with status := WorkItemTaskStatus.completed,
                       completed_at := some now,
                       completed_by := completed_by,
                       notes := notes,
                       field_values := validated_values }),
            updated_at := now,
            activities := l.activities ++ [activity] })
    .ok ({ db with leads := upd.1 }, upd.2)

/-- Stable insertion step for the Mongo `sort("order", 1)`: strictly
smaller orders stay in front, ties keep their original relative position. -/
def insertByOrder (s : WorkStage) : List WorkStage → List WorkStage
  | [] => [s]
  | t :: rest =>
    if t.order < s.order then t :: insertByOrder s rest else s :: t :: rest

/-- Stable sort of stages by ascending `order` (Mongo's string-keyed sort
on a single field is stable over insertion order). -/
def sortStagesByOrder : List WorkStage → List WorkStage
  | [] => []
  | x :: xs => insertByOrder x (sortStagesByOrder xs)

/-- The Mongo query of `list_stages`: all stages, or those of one config.
There is no `is_active` filter in the query. -/
def stagesQuery (db : DB) (config_uid : Option String) : List WorkStage :=
  match config_uid with
  | Option.none => db.stages
  | some c => db.stages.filter (fun s => s.config == c)

/-- `LeadService.list_stages`: the query result sorted by `order`
ascending. -/
def list_stages (db : DB) (config_uid : Option String) : List WorkStage :=
  sortStagesByOrder (stagesQuery db config_uid)

/-- One element of the list `get_kanban_data` returns. -/
structure KanbanEntry where
  stage : WorkStage
  leads : List WorkItem
  count : Nat
deriving DecidableEq

/-- The per-stage lead query of `get_kanban_data`:
`{"current_stage": stage.uid}` plus `{"config": config_uid}` when
filtering. -/
def kanbanLeadsQuery (config_uid : Option String) (stage_uid : String)
    (l : WorkItem) : Bool :=
  l.current_stage == stage_uid &&
    (match config_uid with
     | Option.none => true
     | some c => l.config == c)

/-- `LeadService.get_kanban_data`: list stages (via `list_stages`), then
for each stage collect the leads matching the per-stage query, with
`count = len(leads)`. -/
def get_kanban_data (db : DB) (config_uid : Option String) :
    List KanbanEntry :=
  (list_stages db config_uid).map (fun stage =>
    let leads := db.leads.filter (kanbanLeadsQuery config_uid stage.uid)
    { stage := stage, leads := leads, count := leads.length })

/-- Value of a decimal digit string, as Python `int` computes it. -/
def digitsToNat (l : List Char) : Nat :=
  l.foldl (fun acc c => 10 * acc + (c.toNat - 48)) 0

/-- Fuel-driven decimal printer (most significant digit first). -/
def natDigitsAux : Nat → Nat → List Char
  | 0, _ => []
  | fuel + 1, n =>
    if n < 10 then [Char.ofNat (48 + n)]
    else natDigitsAux fuel (n / 10) ++ [Char.ofNat (48 + n % 10)]

/-- Decimal digits of `n`, as Python `str(n)` renders a non-negative int. -/
def natDigits (n : Nat) : List Char := natDigitsAux (n + 1) n

/-- Python `f"{n:05d}"` for a non-negative int: zero-pad to width 5, keep
longer renderings unchanged. -/
def pad5 (n : Nat) : List Char :=
  List.replicate (5 - (natDigits n).length) '0' ++ natDigits n

/-- Python `s.split("-")[-1]`: the characters after the last dash (the
whole string when there is none). -/
def afterLastDash (l : List Char) : List Char :=
  (l.reverse.takeWhile (fun c => c != '-')).reverse

/-- The `^pattern` regex anchor for a pattern with no special characters. -/
def strStartsWith (s pat : String) : Bool := pat.toList.isPrefixOf s.toList

/-- Decimal digit test by code point (`'0'` to `'9'`). -/
def isDigitChar (c : Char) : Bool :=
  48 ≤ c.toNat && c.toNat ≤ 57

/-- Python `int(s)` on the trailing component: succeeds exactly on
non-empty all-digit strings (the only shape the generator ever feeds it),
raises `ValueError` (here: `none`) otherwise. Signs and whitespace never
occur in an `item_id` tail and are not modelled. -/
def pyInt? (l : List Char) : Option Nat :=
  if l.isEmpty then Option.none
  else if l.all isDigitChar then some (digitsToNat l)
  else Option.none

/-- `find_one(..., sort=[("item_id", -1)])` over the regex-filtered set:
the lexicographically greatest string, `none` when the set is empty. -/
def maxStr : List String → Option String
  | [] => Option.none
  | s :: rest =>
    match maxStr rest with
    | Option.none => some s
    | some m => if strLt m s then some s else some m

/-- `generate_lead_id` from models.py over the collection's current
`item_id`s: filter by the `^{pre}-{year_month}-` anchor, take the
lexicographically greatest match, parse its trailing integer and add one
(start at 1 when there is no match), render with `%05d`. `none` models the
uncaught `ValueError` of `int()` on a malformed tail. -/
def generate_lead_id (existing_item_ids : List String)
    (pre year_month : String) : Option String :=
  match maxStr (existing_item_ids.filter
      (fun s => strStartsWith s (pre ++ "-" ++ year_month ++ "-"))) with
  | Option.none => some ((pre ++ "-" ++ year_month ++ "-") ++ String.mk (pad5 1))
  | some m =>
    match pyInt? (afterLastDash m.toList) with
    | Option.none => Option.none
    | some last_num =>
      some ((pre ++ "-" ++ year_month ++ "-") ++ String.mk (pad5 (last_num + 1)))

end Funnel

deriving instance DecidableEq for Except

namespace Funnel

/-! ### Concrete fixtures used by the closed theorems -/

/-- Fixture: stage `A` with the single pipeline edge A → B. -/
def stageA : WorkStage :=
  { uid := "A", config := "cfg", name := "Stage A", slug := "a",
    allowed_next_stages := ["B"] }

/-- Fixture: stage `B` with no outgoing edges and no task templates. -/
def stageB : WorkStage :=
  { uid := "B", config := "cfg", name := "Stage B", slug := "b" }

/-- Fixture: the raw lead as handed to `create_lead` (no history yet). -/
def leadA : WorkItem :=
  { uid := "L1", item_id := "LEAD-202510-00001", current_stage := "A",
    name := "Lead one", config := "cfg" }

/-- Fixture: the stage catalog with A and B. -/
def dbAB : DB := { leads := [], stages := [stageA, stageB] }

/-- Fixture: the store after `create_lead` at time 0 — the freshly created
lead has one open history entry for stage A. -/
def dbCreated : DB := create_lead dbAB leadA 0

/-- Fixture uid supply standing in for `uuid.uuid4()`. -/
def uidSup : Nat → String := fun n => "task-" ++ String.mk (natDigits n)

/-- The lead as read back after transitioning the fresh lead from A to B at
time 1. -/
def afterFirstTransition : Option WorkItem :=
  match transition_stage dbCreated "L1" "B" "" Option.none 1 uidSup with
  | .ok db2 => get_lead db2 "L1"
  | .error _ => Option.none

/-- C1: the claim says that after any sequence of successful transitions
exactly one history entry has `exited_at == null` and its stage equals
`current_stage`. The code closes the open entry but never persists the
`new_history` entry it builds (the comment `# Add new stage to history` in
the source announces an append that is missing from the update document),
so after one successful transition from a freshly created lead the number
of open history entries is 0, not 1 — the repository's own reference
implementation in docs/SERVICE-IMPLEMENTATION.py pushes `new_history`,
confirming the omission is a slip. This theorem evaluates the engine at
that failing input. -/
theorem C1_open_history_lost_after_successful_transition :
    (transition_stage dbCreated "L1" "B" "" Option.none 1 uidSup).toOption.isSome = true ∧
    afterFirstTransition.map (fun l =>
        ((l.history.filter (fun h => h.exited_at.isNone)).length, l.current_stage))
      = some (0, "B") := by
  exact ⟨rfl, rfl⟩

/-- C2: on the same successful transition the code does set
`current_stage = "B"`, `status = in_progress`, `updated_at = now` and does
close the previously open entry, but the claimed append of the new open
history entry `{stage: "B", entered_at: now, exited_at: null}` never
happens: the persisted history is exactly the closed A-entry and contains
no entry for B at all. -/
theorem C2_transition_never_appends_new_open_history_entry :
    afterFirstTransition.map (fun l =>
        (l.current_stage, decide (l.status = WorkItemStatus.in_progress),
         l.updated_at, l.history,
         (l.history.filter (fun h => h.stage == "B")).length))
      = some ("B", true, 1,
          [{ stage := "A", entered_at := 0, exited_at := some 1 }], 0) := by
  exact rfl

/-! ### C10: ordered comparison against None -/

/-- `None < v` raises `TypeError` for every Python value `v`. -/
theorem pyLt_none_left (v : PyValue) : pyLt PyValue.none v = .error .typeError := by
  cases v <;> rfl

/-- `v < None` (hence `None > v` reversed) raises `TypeError` for every `v`. -/
theorem pyLt_none_right (v : PyValue) : pyLt v PyValue.none = .error .typeError := by
  cases v <;> rfl

/-- A dict with a bound `min`/`max` key is truthy. -/
theorem lookupRule_isEmpty_false {rules : List (String × PyValue)} {k : String}
    {v : PyValue} (h : lookupRule rules k = some v) : rules.isEmpty = false := by
  cases rules with
  | nil => simp [lookupRule] at h
  | cons a l => rfl

/-- C10: for a `FieldDefinition` whose type is not integer/decimal/boolean
and whose `validation_rules` bind `min` or `max`, `validate_field_value`
on `None` raises `TypeError` from the ordered comparison — the min/max
checks run before the required-None check, so the latter is unreachable
for such definitions and the function's failures are not uniformly
`ValueError`. -/
theorem C10_validate_none_with_min_or_max_raises_type_error
    (fd : FieldDefinition)
    (h1 : fd.field_type ≠ FieldType.integer)
    (h2 : fd.field_type ≠ FieldType.decimal)
    (h3 : fd.field_type ≠ FieldType.boolean)
    (h4 : (lookupRule fd.validation_rules "min").isSome ∨
          (lookupRule fd.validation_rules "max").isSome) :
    validate_field_value fd PyValue.none = .error .typeError := by
  have hne : fd.validation_rules.isEmpty = false := by
    rcases h4 with h | h <;>
      exact lookupRule_isEmpty_false (Option.isSome_iff_exists.mp h).choose_spec
  cases hmin : lookupRule fd.validation_rules "min" with
  | some mn =>
    simp [validate_field_value, if_neg h1, if_neg h2, if_neg h3, hne, hmin,
      pyLt_none_left]
  | none =>
    rcases h4 with h | h
    · rw [hmin] at h; simp at h
    · obtain ⟨mx, hmx⟩ := Option.isSome_iff_exists.mp h
      simp [validate_field_value, if_neg h1, if_neg h2, if_neg h3, hne, hmin,
        hmx, pyGt, pyLt_none_right]

/-- Fixture for C10: a string field with a `min` rule. -/
def fdStringMin : FieldDefinition :=
  { field_key := "k", label := "K", field_type := FieldType.string,
    input_type := InputType.text, validation_rules := [("min", PyValue.int 0)] }

/-- Witness for C10 at the concrete string-typed definition with a `min`
rule. -/
theorem C10_witness :
    validate_field_value fdStringMin PyValue.none = .error .typeError :=
  C10_validate_none_with_min_or_max_raises_type_error fdStringMin
    (by decide) (by decide) (by decide) (Or.inl (by decide))

/-! ### C4: transition-graph enforcement -/

/-- C4: whenever the lead resolves, its current stage resolves to
`curStage`, the target resolves to `tgtStage`, and `tgtStage.uid` is not in
`curStage.allowed_next_stages`, the transition raises
`TransitionNotAllowed` carrying both stage names; the exception is raised
before the update statement, so nothing is written. -/
theorem C4_disallowed_edge_always_rejected
    (db : DB) (lead_uid target comment : String) (pb : Option String)
    (now : Nat) (sup : Nat → String) (lead : WorkItem)
    (curStage tgtStage : WorkStage)
    (hlead : get_lead db lead_uid = some lead)
    (hcur : get_stage db lead.current_stage = some curStage)
    (htgt : get_stage db target = some tgtStage)
    (hnot : tgtStage.uid ∉ curStage.allowed_next_stages) :
    transition_stage db lead_uid target comment pb now sup
      = .error (.transitionNotAllowed curStage.name tgtStage.name) := by
  have huid : tgtStage.uid = target := by
    have h := List.find?_some htgt
    simpa using h
  rw [huid] at hnot
  unfold transition_stage
  simp only [hlead, hcur, htgt]
  rw [if_pos hnot]

/-- Fixture: the same lead sitting in stage B (which has no outgoing
edges). -/
def leadInB : WorkItem := { leadA with current_stage := "B" }

/-- Fixture: store with the lead in stage B. -/
def dbBA : DB := { leads := [leadInB], stages := [stageA, stageB] }

/-- Witness for C4: B → A is not an edge, so the transition is rejected
with both stage names. -/
theorem C4_witness :
    transition_stage dbBA "L1" "A" "" Option.none 1 uidSup
      = .error (.transitionNotAllowed "Stage B" "Stage A") :=
  C4_disallowed_edge_always_rejected dbBA "L1" "A" "" Option.none 1 uidSup
    leadInB stageB stageA rfl rfl rfl (by decide)

/-! ### C3: required-task gating -/

/-- Fixture: a required, still-pending task instance. -/
def reqTask : WorkItemTask :=
  { uid := "TK1", name := "Collect documents", template_id := "ST0",
    stage := "A", required := true }

/-- Fixture: lead in stage A carrying the incomplete required task. -/
def leadWithReq : WorkItem := { leadA with uid := "L3", tasks := [reqTask] }

/-- Fixture: store with that lead. -/
def dbReq : DB := { leads := [leadWithReq], stages := [stageA, stageB] }

/-- Counterexample to C3 as stated: for the target stage `"nosuch"` the
lead with an incomplete required task does NOT fail with
`RequiredTasksIncomplete` — the target-existence check fires first and the
error is `NotFound`, a different error. So "fails with a
RequiredTasksIncomplete error … for every target stage" is false. -/
theorem C3_counterexample :
    transition_stage dbReq "L3" "nosuch" "" Option.none 1 uidSup
      = .error (.stageNotFound "nosuch") ∧
    TransitionError.stageNotFound "nosuch"
      ≠ TransitionError.requiredTasksIncomplete ["Collect documents"] := by
  exact ⟨rfl, by decide⟩

/-- C3 (amended): a lead holding any required task whose status is not
completed can never successfully transition — every target yields an
error — and whenever the remaining preconditions hold (current stage
resolves, target exists and the edge is allowed) the error is exactly
`RequiredTasksIncomplete` carrying the blocking task names, raised before
any write. -/
theorem C3_required_task_blocks_all_transitions
    (db : DB) (lead_uid target comment : String) (pb : Option String)
    (now : Nat) (sup : Nat → String) (lead : WorkItem)
    (hlead : get_lead db lead_uid = some lead)
    (hblock : ∃ t ∈ lead.tasks,
      t.required = true ∧ t.status ≠ WorkItemTaskStatus.completed) :
    (∃ e, transition_stage db lead_uid target comment pb now sup = .error e) ∧
    (∀ curStage tgtStage, get_stage db lead.current_stage = some curStage →
      get_stage db target = some tgtStage →
      target ∈ curStage.allowed_next_stages →
      transition_stage db lead_uid target comment pb now sup
        = .error (.requiredTasksIncomplete
            ((lead.tasks.filter
                (fun t => t.required && !(t.status == WorkItemTaskStatus.completed))).map
              (fun t => t.name)))) := by
  obtain ⟨t, ht, hr, hs⟩ := hblock
  have hmemf : t ∈ lead.tasks.filter
      (fun t => t.required && !(t.status == WorkItemTaskStatus.completed)) :=
    List.mem_filter.mpr ⟨ht, by simp [hr, hs]⟩
  have hfe : ¬ (lead.tasks.filter
      (fun t => t.required && !(t.status == WorkItemTaskStatus.completed))).isEmpty := by
    simp only [List.isEmpty_iff]
    exact List.ne_nil_of_mem hmemf
  have key : ∀ curStage tgtStage, get_stage db lead.current_stage = some curStage →
      get_stage db target = some tgtStage →
      target ∈ curStage.allowed_next_stages →
      transition_stage db lead_uid target comment pb now sup
        = .error (.requiredTasksIncomplete
            ((lead.tasks.filter
                (fun t => t.required && !(t.status == WorkItemTaskStatus.completed))).map
              (fun t => t.name))) := by
    intro curStage tgtStage hcur htgt hmem
    unfold transition_stage
    simp only [hlead, hcur, htgt]
    rw [if_neg (not_not_intro hmem), if_pos hfe]
  refine ⟨?_, key⟩
  cases htgt : get_stage db target with
  | none =>
    refine ⟨.stageNotFound target, ?_⟩
    unfold transition_stage
    simp only [hlead, htgt]
  | some tgtStage =>
    cases hcur : get_stage db lead.current_stage with
    | none =>
      refine ⟨.noneTypeAttributeError, ?_⟩
      unfold transition_stage
      simp only [hlead, hcur, htgt]
    | some curStage =>
      by_cases hmem : target ∈ curStage.allowed_next_stages
      · exact ⟨_, key curStage tgtStage hcur htgt hmem⟩
      · refine ⟨.transitionNotAllowed curStage.name tgtStage.name, ?_⟩
        unfold transition_stage
        simp only [hlead, hcur, htgt]
        rw [if_pos hmem]

/-- Witness for C3 (amended) at the concrete store: the allowed edge A → B
is still blocked by the incomplete required task, with its name reported. -/
theorem C3_witness :
    transition_stage dbReq "L3" "B" "" Option.none 1 uidSup
      = .error (.requiredTasksIncomplete ["Collect documents"]) := by
  have h := (C3_required_task_blocks_all_transitions dbReq "L3" "B" ""
      Option.none 1 uidSup leadWithReq rfl
      ⟨reqTask, by decide, rfl, by decide⟩).2 stageA stageB rfl rfl (by decide)
  exact h

/-! ### C6: precondition evaluation order -/

/-- Fixture: lead whose `current_stage` references a stage that does not
exist. -/
def leadGhost : WorkItem := { leadA with uid := "L2", current_stage := "ghost" }

/-- Fixture: store with the corrupted lead. -/
def dbGhost : DB := { leads := [leadGhost], stages := [stageA, stageB] }

/-- Counterexample to C6 as stated: with an unresolvable `current_stage`
and a nonexistent target the failure is the target's `NotFound`, not an
`InvalidState` raised beforehand; and with an existing target the failure
is an uncontrolled `AttributeError` on `None`, not a controlled
`InvalidState`. There is no current-stage resolution check before the
target check. -/
theorem C6_counterexample :
    transition_stage dbGhost "L2" "phantom" "" Option.none 1 uidSup
      = .error (.stageNotFound "phantom") ∧
    transition_stage dbGhost "L2" "B" "" Option.none 1 uidSup
      = .error .noneTypeAttributeError := by
  exact ⟨rfl, rfl⟩

/-- C6 (amended): the order actually implemented is: lead existence
(`NotFound`) first; then target-stage existence (`NotFound`); only then,
when the lead's `current_stage` did not resolve, the membership test
crashes with an uncontrolled `AttributeError` on `None` — there is no
explicit `InvalidState` check, and the target-existence check precedes the
current-stage failure. -/
theorem C6_precondition_order
    (db : DB) (lead_uid target comment : String) (pb : Option String)
    (now : Nat) (sup : Nat → String) :
    (get_lead db lead_uid = Option.none →
      transition_stage db lead_uid target comment pb now sup
        = .error (.leadNotFound lead_uid)) ∧
    (∀ lead, get_lead db lead_uid = some lead →
      get_stage db target = Option.none →
      transition_stage db lead_uid target comment pb now sup
        = .error (.stageNotFound target)) ∧
    (∀ lead tgtStage, get_lead db lead_uid = some lead →
      get_stage db lead.current_stage = Option.none →
      get_stage db target = some tgtStage →
      transition_stage db lead_uid target comment pb now sup
        = .error .noneTypeAttributeError) := by
  refine ⟨?_, ?_, ?_⟩
  · intro h
    unfold transition_stage
    simp only [h]
  · intro lead hlead htgt
    unfold transition_stage
    simp only [hlead, htgt]
  · intro lead tgtStage hlead hcur htgt
    unfold transition_stage
    simp only [hlead, hcur, htgt]

/-- Witness for C6 (amended), hitting all three branches on concrete
stores. -/
theorem C6_witness :
    transition_stage dbAB "L1" "B" "" Option.none 1 uidSup
      = .error (.leadNotFound "L1") ∧
    transition_stage dbGhost "L2" "phantom2" "" Option.none 1 uidSup
      = .error (.stageNotFound "phantom2") ∧
    transition_stage dbGhost "L2" "A" "" Option.none 1 uidSup
      = .error .noneTypeAttributeError := by
  refine ⟨(C6_precondition_order dbAB "L1" "B" "" Option.none 1 uidSup).1 rfl,
    (C6_precondition_order dbGhost "L2" "phantom2" "" Option.none 1 uidSup).2.1
      leadGhost rfl rfl,
    (C6_precondition_order dbGhost "L2" "A" "" Option.none 1 uidSup).2.2
      leadGhost stageA rfl rfl rfl⟩

/-! ### C7: task completion — validate before write, uniform not-found -/

/-- `mapM` over `Option` fails as soon as any element fails. -/
theorem mapM_option_eq_none {α β : Type} {f : α → Option β} {l : List α}
    (h : ∃ r ∈ l, f r = Option.none) : l.mapM f = Option.none := by
  induction l with
  | nil => simp at h
  | cons x xs ih =>
    obtain ⟨r, hr, hfr⟩ := h
    rw [List.mapM_cons]
    rcases List.mem_cons.mp hr with rfl | hmem
    · rw [hfr]; rfl
    · cases hfx : f x with
      | none => rfl
      | some y =>
        show (xs.mapM f >>= fun ys => pure (y :: ys)) = Option.none
        rw [ih ⟨r, hmem, hfr⟩]
        rfl

/-- `mapM` over `Option` succeeds when every element does. -/
theorem mapM_option_eq_some {α β : Type} {f : α → Option β} {l : List α}
    (h : ∀ r ∈ l, (f r).isSome) : ∃ v, l.mapM f = some v := by
  induction l with
  | nil => exact ⟨[], rfl⟩
  | cons x xs ih =>
    obtain ⟨y, hy⟩ := Option.isSome_iff_exists.mp (h x (List.mem_cons_self x xs))
    obtain ⟨v, hv⟩ := ih (fun r hr => h r (List.mem_cons_of_mem x hr))
    exact ⟨y :: v, by rw [List.mapM_cons, hy, hv]; rfl⟩

/-- An `update_one` whose filter matches no document rewrites nothing and
reports `modified_count = 0`. -/
theorem updateFirstMatching_nomatch {ls : List WorkItem} {p : WorkItem → Bool}
    {f : WorkItem → WorkItem} (h : ∀ l ∈ ls, p l = false) :
    updateFirstMatching ls p f = (ls, false) := by
  induction ls with
  | nil => rfl
  | cons l rest ih =>
    have hl := h l (List.mem_cons_self l rest)
    have hrest := ih (fun x hx => h x (List.mem_cons_of_mem l hx))
    simp [updateFirstMatching, hl, hrest]

/-- C7: `complete_task` validates and constructs every field value before
any write — one malformed entry fails the whole call with
`ValidationError` and nothing is touched — and when no document matches
the `(lead uid, task uid)` pair the store is returned unchanged with a
`false` flag, the same result whether the lead is absent or only the task
is. -/
theorem C7_complete_task_validates_first_and_nofound_writes_nothing
    (db : DB) (lead_uid task_uid : String) (fvs : List RawFieldValue)
    (notes : String) (cb : Option String) (now : Nat) :
    ((∃ r ∈ fvs, parseTaskFieldValue r = Option.none) →
      complete_task db lead_uid task_uid fvs notes cb now
        = .error .validationError) ∧
    ((∀ r ∈ fvs, (parseTaskFieldValue r).isSome) →
     (∀ l ∈ db.leads, leadTaskMatch lead_uid task_uid l = false) →
      complete_task db lead_uid task_uid fvs notes cb now
        = .ok (db, false)) := by
  constructor
  · intro h
    unfold complete_task
    rw [mapM_option_eq_none h]
  · intro hall hnm
    obtain ⟨v, hv⟩ := mapM_option_eq_some hall
    unfold complete_task
    rw [hv]
    simp only [updateFirstMatching_nomatch hnm]

/-- Fixture: a raw field value missing its `field_type` key. -/
def badRawFV : RawFieldValue := { varName := some (PyValue.str "x") }

/-- Fixture: a well-formed raw field value. -/
def goodRawFV : RawFieldValue :=
  { varName := some (PyValue.str "x"),
    field_typeRaw := some (PyValue.str "string") }

/-- Witness for C7: a malformed entry aborts with `ValidationError`; with
well-formed entries but no matching task the store is unchanged and the
result is the not-found flag — here the lead exists but the task does not,
and the result is identical to the missing-lead case proved by the same
theorem. -/
theorem C7_witness :
    complete_task dbCreated "L1" "TK9" [badRawFV] "" Option.none 5
      = .error .validationError ∧
    complete_task dbCreated "L1" "TK9" [goodRawFV] "" Option.none 5
      = .ok (dbCreated, false) ∧
    complete_task dbCreated "NOLEAD" "TK9" [goodRawFV] "" Option.none 5
      = .ok (dbCreated, false) := by
  refine ⟨(C7_complete_task_validates_first_and_nofound_writes_nothing
      dbCreated "L1" "TK9" [badRawFV] "" Option.none 5).1
      ⟨badRawFV, by decide, rfl⟩,
    (C7_complete_task_validates_first_and_nofound_writes_nothing
      dbCreated "L1" "TK9" [goodRawFV] "" Option.none 5).2
      (by decide) (by decide),
    (C7_complete_task_validates_first_and_nofound_writes_nothing
      dbCreated "NOLEAD" "TK9" [goodRawFV] "" Option.none 5).2
      (by decide) (by decide)⟩

/-! ### C5: task instantiation on successful transition -/

/-- The task instances a successful transition to `tgtStage` appends: one
per entry of `stage_tasks` (the source has no `is_active` filter), with
the positional uid from the supply. -/
def newTasksFor (tgtStage : WorkStage) (target : String)
    (sup : Nat → String) : List WorkItemTask :=
  tgtStage.stage_tasks.enum.map (fun p => instantiateTask (sup p.1) target p.2)

/-- The document rewrite a successful transition applies to the matched
lead. -/
def transitionUpdate (lead : WorkItem) (curStage tgtStage : WorkStage)
    (target comment : String) (pb : Option String) (now : Nat)
    (sup : Nat → String) (l : WorkItem) : WorkItem :=
  { l with current_stage := target,
           status := WorkItemStatus.in_progress,
           updated_at := now,
           history := lead.history.map (fun h =>
             if h.stage == lead.current_stage && h.exited_at.isNone then
               { h with exited_at := some now } else h),
           tasks := l.tasks ++ newTasksFor tgtStage target sup,
           activities := l.activities ++
             [{ type := "STAGE_CHANGE",
                subject := "Lead moved to " ++ tgtStage.name,
                description := some comment,
                performed_by := pb, created_at := now, created_by := pb,
                activity_data := [("from_stage", curStage.name),
                  ("to_stage", tgtStage.name), ("comment", comment)] }] }

/-- When every precondition holds, `transition_stage` succeeds and performs
exactly the compound update on the first matching document. -/
theorem transition_stage_success
    (db : DB) (lead_uid target comment : String) (pb : Option String)
    (now : Nat) (sup : Nat → String) (lead : WorkItem)
    (curStage tgtStage : WorkStage)
    (hlead : get_lead db lead_uid = some lead)
    (hcur : get_stage db lead.current_stage = some curStage)
    (htgt : get_stage db target = some tgtStage)
    (hmem : target ∈ curStage.allowed_next_stages)
    (hreq : ∀ t ∈ lead.tasks, t.required = true →
      t.status = WorkItemTaskStatus.completed) :
    transition_stage db lead_uid target comment pb now sup
      = .ok { db with leads := (updateFirstLead db.leads lead_uid
          (transitionUpdate lead curStage tgtStage target comment pb now sup)) } := by
  have hfe : lead.tasks.filter
      (fun t => t.required && !(t.status == WorkItemTaskStatus.completed)) = [] := by
    rw [List.filter_eq_nil_iff]
    intro t ht
    cases hre : t.required with
    | false => simp [hre]
    | true => simp [hre, hreq t ht hre]
  unfold transition_stage
  simp only [hlead, hcur, htgt]
  rw [if_neg (not_not_intro hmem)]
  simp only [hfe]
  rfl

/-- A lead update that keeps the uid commutes with the uid-keyed
`find_one`. -/
theorem find?_updateFirstLead (leads : List WorkItem) (uid : String)
    (f : WorkItem → WorkItem) (hf : ∀ l, (f l).uid = l.uid) :
    (updateFirstLead leads uid f).find? (fun l => l.uid == uid)
      = (leads.find? (fun l => l.uid == uid)).map f := by
  induction leads with
  | nil => rfl
  | cons l rest ih =>
    by_cases h : l.uid = uid
    · have hb : (l.uid == uid) = true := beq_iff_eq.mpr h
      simp [updateFirstLead, List.find?, hb, hf l]
    · have hb : (l.uid == uid) = false := beq_eq_false_iff_ne.mpr h
      simp [updateFirstLead, List.find?, hb, ih]

/-- Mapping a function of the entry over `enum` sees only the elements. -/
theorem enum_map_comp_snd {α β : Type} (l : List α) (g : α → β) :
    l.enum.map (fun p => g p.2) = l.map g := by
  rw [show (fun p : Nat × α => g p.2) = (g ∘ Prod.snd) from rfl, ← List.map_map,
    List.enum_map_snd]

/-- Mapping a function of the index over `enum` sees only the positions. -/
theorem enum_map_comp_fst {α β : Type} (l : List α) (g : Nat → β) :
    l.enum.map (fun p => g p.1) = (List.range l.length).map g := by
  rw [show (fun p : Nat × α => g p.1) = (g ∘ Prod.fst) from rfl, ← List.map_map,
    List.enum_map_fst]

/-- Fixture: a deactivated task template. -/
def inactiveTemplate : WorkStageTask :=
  { uid := "ST1", name := "Inactive task", is_active := false }

/-- Fixture: stage B carrying only the deactivated template. -/
def stageBInactive : WorkStage := { stageB with stage_tasks := [inactiveTemplate] }

/-- Fixture: store whose target stage has one inactive template. -/
def dbInactive : DB := { leads := [leadA], stages := [stageA, stageBInactive] }

/-- The lead read back after transitioning into the stage with the
inactive template. -/
def afterInactiveTransition : Option WorkItem :=
  match transition_stage dbInactive "L1" "B" "" Option.none 1 uidSup with
  | .ok db2 => get_lead db2 "L1"
  | .error _ => Option.none

/-- Counterexample to C5 as stated: the source instantiates one task per
`WorkStageTask` in `stage_tasks` with NO `is_active` filter, so a
transition into a stage whose only template is inactive still appends one
task (the claim predicts zero). -/
theorem C5_counterexample :
    inactiveTemplate.is_active = false ∧
    afterInactiveTransition.map (fun l =>
        l.tasks.map (fun t => (t.template_id, t.is_active)))
      = some [("ST1", false)] := ⟨rfl, rfl⟩

/-- C5 (amended): a successful transition appends exactly one task per
entry of the target's `stage_tasks` — active or not — each with
`template_id` its template's uid (in template order), `stage` the target
uid, status pending and empty `field_values`; no existing task is removed
(the old list is a prefix) and the length grows by `stage_tasks.length`,
so lengths add up across transitions; and when the uid supply is injective
and avoids the existing task uids, all task uids remain globally
distinct. -/
theorem C5_tasks_instantiated_per_template_and_accumulated
    (db : DB) (lead_uid target comment : String) (pb : Option String)
    (now : Nat) (sup : Nat → String) (lead : WorkItem)
    (curStage tgtStage : WorkStage)
    (hlead : get_lead db lead_uid = some lead)
    (hcur : get_stage db lead.current_stage = some curStage)
    (htgt : get_stage db target = some tgtStage)
    (hmem : target ∈ curStage.allowed_next_stages)
    (hreq : ∀ t ∈ lead.tasks, t.required = true →
      t.status = WorkItemTaskStatus.completed) :
    ∃ db2, transition_stage db lead_uid target comment pb now sup = .ok db2 ∧
    ∃ l2, get_lead db2 lead_uid = some l2 ∧
      lead.tasks <+: l2.tasks ∧
      l2.tasks.length = lead.tasks.length + tgtStage.stage_tasks.length ∧
      l2.tasks.map (fun t => t.template_id)
        = lead.tasks.map (fun t => t.template_id)
          ++ tgtStage.stage_tasks.map (fun st => st.uid) ∧
      (∀ t ∈ l2.tasks.drop lead.tasks.length,
        t.stage = target ∧ t.status = WorkItemTaskStatus.pending ∧
        t.field_values = []) ∧
      ((lead.tasks.map (fun t => t.uid)).Nodup →
       (∀ i j, i < tgtStage.stage_tasks.length →
         j < tgtStage.stage_tasks.length → sup i = sup j → i = j) →
       (∀ i, i < tgtStage.stage_tasks.length →
         sup i ∉ lead.tasks.map (fun t => t.uid)) →
       (l2.tasks.map (fun t => t.uid)).Nodup) := by
  refine ⟨_, transition_stage_success db lead_uid target comment pb now sup lead
    curStage tgtStage hlead hcur htgt hmem hreq, ?_⟩
  have hlead' : db.leads.find? (fun l => l.uid == lead_uid) = some lead := hlead
  have hget : get_lead { db with leads := (updateFirstLead db.leads lead_uid
      (transitionUpdate lead curStage tgtStage target comment pb now sup)) } lead_uid
      = some (transitionUpdate lead curStage tgtStage target comment pb now sup lead) := by
    show (updateFirstLead db.leads lead_uid _).find? (fun l => l.uid == lead_uid) = _
    rw [find?_updateFirstLead db.leads lead_uid
        (transitionUpdate lead curStage tgtStage target comment pb now sup)
        (fun l => rfl), hlead']
    rfl
  have hnewmap : (newTasksFor tgtStage target sup).map (fun t => t.uid)
      = (List.range tgtStage.stage_tasks.length).map sup := by
    show (tgtStage.stage_tasks.enum.map _).map _ = _
    rw [List.map_map]
    exact enum_map_comp_fst tgtStage.stage_tasks sup
  refine ⟨_, hget, List.prefix_append _ _, ?_, ?_, ?_, ?_⟩
  · show (lead.tasks ++ newTasksFor tgtStage target sup).length = _
    simp [newTasksFor]
  · show (lead.tasks ++ newTasksFor tgtStage target sup).map (fun t => t.template_id) = _
    rw [List.map_append]
    congr 1
    show (tgtStage.stage_tasks.enum.map _).map _ = _
    rw [List.map_map]
    exact enum_map_comp_snd tgtStage.stage_tasks (fun st => st.uid)
  · show ∀ t ∈ (lead.tasks ++ newTasksFor tgtStage target sup).drop lead.tasks.length, _
    rw [List.drop_left]
    intro t ht
    obtain ⟨p, hp, rfl⟩ := List.mem_map.mp ht
    exact ⟨rfl, rfl, rfl⟩
  · intro h1 h2 h3
    show ((lead.tasks ++ newTasksFor tgtStage target sup).map (fun t => t.uid)).Nodup
    rw [List.map_append, List.nodup_append]
    refine ⟨h1, ?_, ?_⟩
    · rw [hnewmap]
      exact List.Nodup.map_on
        (fun i hi j hj hij =>
          h2 i j (List.mem_range.mp hi) (List.mem_range.mp hj) hij)
        (List.nodup_range _)
    · intro a ha hb
      rw [hnewmap] at hb
      obtain ⟨i, hi, rfl⟩ := List.mem_map.mp hb
      exact h3 i (List.mem_range.mp hi) ha

/-- Witness for C5 (amended) at the store whose target stage holds one
(inactive) template. -/
theorem C5_witness :
    ∃ db2, transition_stage dbInactive "L1" "B" "" Option.none 1 uidSup
        = .ok db2 ∧
    ∃ l2, get_lead db2 "L1" = some l2 ∧
      leadA.tasks <+: l2.tasks ∧
      l2.tasks.length = leadA.tasks.length + stageBInactive.stage_tasks.length ∧
      l2.tasks.map (fun t => t.template_id)
        = leadA.tasks.map (fun t => t.template_id)
          ++ stageBInactive.stage_tasks.map (fun st => st.uid) ∧
      (∀ t ∈ l2.tasks.drop leadA.tasks.length,
        t.stage = "B" ∧ t.status = WorkItemTaskStatus.pending ∧
        t.field_values = []) ∧
      ((leadA.tasks.map (fun t => t.uid)).Nodup →
       (∀ i j, i < stageBInactive.stage_tasks.length →
         j < stageBInactive.stage_tasks.length → uidSup i = uidSup j → i = j) →
       (∀ i, i < stageBInactive.stage_tasks.length →
         uidSup i ∉ leadA.tasks.map (fun t => t.uid)) →
       (l2.tasks.map (fun t => t.uid)).Nodup) :=
  C5_tasks_instantiated_per_template_and_accumulated dbInactive "L1" "B" ""
    Option.none 1 uidSup leadA stageA stageBInactive rfl rfl rfl
    (by decide) (by decide)

/-! ### C9: the Kanban projection -/

/-- Inserting into the stable sort keeps a permutation. -/
theorem insertByOrder_perm (s : WorkStage) (l : List WorkStage) :
    List.Perm (insertByOrder s l) (s :: l) := by
  induction l with
  | nil => exact List.Perm.refl _
  | cons t rest ih =>
    unfold insertByOrder
    by_cases h : t.order < s.order
    · rw [if_pos h]
      exact (ih.cons t).trans (List.Perm.swap s t rest)
    · rw [if_neg h]

/-- The stage sort is a permutation of its input. -/
theorem sortStagesByOrder_perm (l : List WorkStage) :
    List.Perm (sortStagesByOrder l) l := by
  induction l with
  | nil => exact List.Perm.refl _
  | cons x xs ih =>
    exact (insertByOrder_perm x (sortStagesByOrder xs)).trans (ih.cons x)

/-- Insertion keeps the list ordered by ascending `order`. -/
theorem insertByOrder_pairwise (s : WorkStage) (l : List WorkStage)
    (h : l.Pairwise (fun a b => a.order ≤ b.order)) :
    (insertByOrder s l).Pairwise (fun a b => a.order ≤ b.order) := by
  induction l with
  | nil => simp [insertByOrder]
  | cons t rest ih =>
    rw [List.pairwise_cons] at h
    unfold insertByOrder
    by_cases hc : t.order < s.order
    · rw [if_pos hc, List.pairwise_cons]
      refine ⟨?_, ih h.2⟩
      intro x hx
      rcases List.mem_cons.mp ((insertByOrder_perm s rest).mem_iff.mp hx) with rfl | hxr
      · exact le_of_lt hc
      · exact h.1 x hxr
    · rw [if_neg hc, List.pairwise_cons]
      refine ⟨?_, List.pairwise_cons.mpr ⟨h.1, h.2⟩⟩
      intro x hx
      rcases List.mem_cons.mp hx with rfl | hxr
      · exact le_of_not_lt hc
      · exact le_trans (le_of_not_lt hc) (h.1 x hxr)

/-- The stage sort is sorted by ascending `order`. -/
theorem sortStagesByOrder_pairwise (l : List WorkStage) :
    (sortStagesByOrder l).Pairwise (fun a b => a.order ≤ b.order) := by
  induction l with
  | nil => simp [sortStagesByOrder]
  | cons x xs ih => exact insertByOrder_pairwise x _ ih

/-- Fixture: a deactivated stage. -/
def stageInactive : WorkStage :=
  { uid := "S", config := "cfg", name := "Hidden stage", slug := "s",
    is_active := false }

/-- Fixture: a lead sitting in the deactivated stage. -/
def leadInS : WorkItem := { leadA with uid := "L9", current_stage := "S" }

/-- Fixture: store whose only stage is inactive. -/
def dbKanban : DB := { leads := [leadInS], stages := [stageInactive] }

/-- Counterexample to C9 as stated: the projection returns one entry per
stage with NO `is_active` filter — a store whose only stage is inactive
still yields that stage as a board column (the claim predicts an empty
board). -/
theorem C9_counterexample :
    (get_kanban_data dbKanban Option.none).map
        (fun e => (e.stage.uid, e.stage.is_active, e.count))
      = [("S", false, 1)] := rfl

/-- C9 (amended): the Kanban projection is a pure read returning one entry
per stage of the store (filtered by config when given, with no
`is_active` filter), sorted by `order` ascending; each entry's leads are
exactly the store's leads whose `current_stage` is that stage's uid (and
whose config matches when filtering), and its count is their number. -/
theorem C9_kanban_groups_by_stage_sorted_by_order
    (db : DB) (cfg : Option String) :
    List.Perm ((get_kanban_data db cfg).map (fun e => e.stage))
      (stagesQuery db cfg) ∧
    ((get_kanban_data db cfg).map (fun e => e.stage.order)).Pairwise
      (fun a b => a ≤ b) ∧
    ∀ e ∈ get_kanban_data db cfg,
      e.count = e.leads.length ∧
      ∀ l, l ∈ e.leads ↔
        l ∈ db.leads ∧ kanbanLeadsQuery cfg e.stage.uid l = true := by
  have hmap : (get_kanban_data db cfg).map (fun e => e.stage)
      = list_stages db cfg := by
    unfold get_kanban_data
    rw [List.map_map]
    exact List.map_id _
  have hmap2 : (get_kanban_data db cfg).map (fun e => e.stage.order)
      = (list_stages db cfg).map (fun s => s.order) := by
    unfold get_kanban_data
    rw [List.map_map]
    rfl
  refine ⟨?_, ?_, ?_⟩
  · rw [hmap]
    exact sortStagesByOrder_perm _
  · rw [hmap2]
    exact (sortStagesByOrder_pairwise _).map _ (fun a b hab => hab)
  · intro e he
    obtain ⟨stage, hs, rfl⟩ := List.mem_map.mp he
    exact ⟨rfl, fun l => List.mem_filter⟩

/-- Witness for C9 (amended) at the concrete store: the inactive stage's
entry is on the board with its lead and count. -/
theorem C9_witness :
    List.Perm ((get_kanban_data dbKanban Option.none).map (fun e => e.stage))
      (stagesQuery dbKanban Option.none) ∧
    (⟨stageInactive, [leadInS], 1⟩ : KanbanEntry)
      ∈ get_kanban_data dbKanban Option.none ∧
    1 = ([leadInS] : List WorkItem).length ∧
    (leadInS ∈ ([leadInS] : List WorkItem) ↔
      leadInS ∈ dbKanban.leads ∧
      kanbanLeadsQuery Option.none "S" leadInS = true) := by
  have h := C9_kanban_groups_by_stage_sorted_by_order dbKanban Option.none
  have hmem : (⟨stageInactive, [leadInS], 1⟩ : KanbanEntry)
      ∈ get_kanban_data dbKanban Option.none := by decide
  have h3 := h.2.2 _ hmem
  exact ⟨h.1, hmem, h3.1, h3.2 leadInS⟩

/-! ### C8: the sequential id generator -/

/-- A Bool that is not true is false. -/
theorem boolNotTrue {b : Bool} (h : ¬ b = true) : b = false := by
  cases b
  · rfl
  · exact absurd rfl h

/-- One unfolding step of the comparison. -/
theorem listLt_cons (x y : Char) (as bs : List Char) :
    listLt (x :: as) (y :: bs)
      = if x.toNat < y.toNat then true
        else if y.toNat < x.toNat then false else listLt as bs := rfl

/-- Head/tail characterisation of the lexicographic comparison. -/
theorem listLt_cons_iff {x y : Char} {as bs : List Char} :
    listLt (x :: as) (y :: bs) = true ↔
      x.toNat < y.toNat ∨ (x.toNat = y.toNat ∧ listLt as bs = true) := by
  rw [listLt_cons]
  by_cases h1 : x.toNat < y.toNat
  · simp [h1]
  · by_cases h2 : y.toNat < x.toNat
    · rw [if_neg h1, if_pos h2]
      constructor
      · intro h
        cases h
      · rintro (h | ⟨h, _⟩) <;> omega
    · have he : x.toNat = y.toNat :=
        Nat.le_antisymm (Nat.not_lt.mp h2) (Nat.not_lt.mp h1)
      rw [if_neg h1, if_neg h2]
      simp [h1, he]

/-- Lexicographic comparison is irreflexive. -/
theorem listLt_irrefl (l : List Char) : listLt l l = false := by
  induction l with
  | nil => rfl
  | cons a as ih => simp [listLt, ih]

/-- Lexicographic comparison is transitive. -/
theorem listLt_trans {a b c : List Char} (hab : listLt a b = true)
    (hbc : listLt b c = true) : listLt a c = true := by
  induction a generalizing b c with
  | nil =>
    cases c with
    | cons z cs => rfl
    | nil =>
      cases b with
      | nil => simp [listLt] at hab
      | cons y bs => simp [listLt] at hbc
  | cons x as ih =>
    cases b with
    | nil => simp [listLt] at hab
    | cons y bs =>
      cases c with
      | nil => simp [listLt] at hbc
      | cons z cs =>
        rw [listLt_cons_iff] at hab hbc ⊢
        rcases hab with h1 | ⟨h1, h1'⟩ <;> rcases hbc with h2 | ⟨h2, h2'⟩
        · exact Or.inl (Nat.lt_trans h1 h2)
        · exact Or.inl (h2 ▸ h1)
        · exact Or.inl (h1 ▸ h2)
        · exact Or.inr ⟨h1.trans h2, ih h1' h2'⟩

/-- Characters with the same code point are equal. -/
theorem char_eq_of_toNat_eq {a b : Char} (h : a.toNat = b.toNat) : a = b :=
  Char.ext (UInt32.toNat.inj h)

/-- Two lists neither of which is lexicographically below the other are
equal. -/
theorem listLt_eq_of_not_lt {a b : List Char} (hab : listLt a b = false)
    (hba : listLt b a = false) : a = b := by
  induction a generalizing b with
  | nil =>
    cases b with
    | nil => rfl
    | cons y bs => simp [listLt] at hab
  | cons x as ih =>
    cases b with
    | nil => simp [listLt] at hba
    | cons y bs =>
      by_cases h1 : x.toNat < y.toNat
      · rw [listLt] at hab
        simp [h1] at hab
      · by_cases h2 : y.toNat < x.toNat
        · rw [listLt] at hba
          simp [h2, Nat.lt_asymm h2] at hba
        · have he : x = y := char_eq_of_toNat_eq
            (Nat.le_antisymm (Nat.not_lt.mp h2) (Nat.not_lt.mp h1))
          subst he
          rw [listLt] at hab hba
          simp only [if_neg h1, if_neg h2] at hab hba
          rw [ih hab hba]

/-- The maximum of an empty result set is `none`. -/
theorem maxStr_eq_none {L : List String} (h : maxStr L = Option.none) :
    L = [] := by
  cases L with
  | nil => rfl
  | cons s rest =>
    rw [maxStr] at h
    cases hr : maxStr rest with
    | none =>
      rw [hr] at h
      have h' : (Option.some s) = Option.none := h
      simp at h'
    | some m' =>
      rw [hr] at h
      have h' : (if strLt m' s = true then some s else some m') = Option.none := h
      by_cases hc : strLt m' s = true
      · rw [if_pos hc] at h'
        simp at h'
      · rw [if_neg hc] at h'
        simp at h'

/-- The reported maximum is one of the strings. -/
theorem maxStr_mem {L : List String} {m : String} (h : maxStr L = some m) :
    m ∈ L := by
  induction L generalizing m with
  | nil => simp [maxStr] at h
  | cons s rest ih =>
    rw [maxStr] at h
    cases hr : maxStr rest with
    | none =>
      rw [hr] at h
      have h' : (Option.some s) = some m := h
      obtain rfl := Option.some.inj h'
      exact List.mem_cons_self _ _
    | some m' =>
      rw [hr] at h
      have h' : (if strLt m' s = true then some s else some m') = some m := h
      by_cases hc : strLt m' s = true
      · rw [if_pos hc] at h'
        obtain rfl := Option.some.inj h'
        exact List.mem_cons_self _ _
      · rw [if_neg hc] at h'
        obtain rfl := Option.some.inj h'
        exact List.mem_cons_of_mem _ (ih hr)

/-- No string in the set is lexicographically above the reported maximum. -/
theorem maxStr_not_lt {L : List String} {m : String} (h : maxStr L = some m) :
    ∀ s ∈ L, strLt m s = false := by
  induction L generalizing m with
  | nil => simp [maxStr] at h
  | cons s rest ih =>
    intro x hx
    rw [maxStr] at h
    cases hr : maxStr rest with
    | none =>
      rw [hr] at h
      have h' : (Option.some s) = some m := h
      obtain rfl := Option.some.inj h'
      have hrest : rest = [] := maxStr_eq_none hr
      subst hrest
      rcases List.mem_cons.mp hx with rfl | h0
      · exact listLt_irrefl _
      · cases h0
    | some m' =>
      rw [hr] at h
      have h' : (if strLt m' s = true then some s else some m') = some m := h
      by_cases hc : strLt m' s = true
      · rw [if_pos hc] at h'
        obtain rfl := Option.some.inj h'
        rcases List.mem_cons.mp hx with rfl | hxr
        · exact listLt_irrefl _
        · by_contra hMx
          have hMx' : strLt s x = true := by
            cases hb : strLt s x
            · exact absurd hb hMx
            · rfl
          have h1 : strLt m' x = true := listLt_trans hc hMx'
          rw [ih hr x hxr] at h1
          cases h1
      · rw [if_neg hc] at h'
        obtain rfl := Option.some.inj h'
        rcases List.mem_cons.mp hx with rfl | hxr
        · exact boolNotTrue hc
        · exact ih hr x hxr

/-- Comparing two strings with a common prefix compares the suffixes. -/
theorem listLt_append_left (p a b : List Char) :
    listLt (p ++ a) (p ++ b) = listLt a b := by
  induction p with
  | nil => rfl
  | cons c cs ih =>
    rw [List.cons_append, List.cons_append, listLt_cons]
    simp [ih]

/-- The digit fold with an arbitrary accumulator. -/
theorem digitsToNat_acc (a : Nat) (l : List Char) :
    l.foldl (fun acc c => 10 * acc + (c.toNat - 48)) a
      = a * 10 ^ l.length + digitsToNat l := by
  induction l generalizing a with
  | nil => simp [digitsToNat]
  | cons c cs ih =>
    rw [List.foldl_cons]
    rw [ih]
    show _ = a * 10 ^ (c :: cs).length + List.foldl _ _ (c :: cs)
    rw [List.foldl_cons, ih]
    simp [List.length_cons]
    ring

/-- Value of a digit string with an explicit leading digit. -/
theorem digitsToNat_cons (c : Char) (l : List Char) :
    digitsToNat (c :: l) = (c.toNat - 48) * 10 ^ l.length + digitsToNat l := by
  show List.foldl _ _ (c :: l) = _
  rw [List.foldl_cons, digitsToNat_acc]
  simp

/-- An all-digit string's value is below `10 ^ length`. -/
theorem digitsToNat_lt (l : List Char) (h : ∀ c ∈ l, isDigitChar c = true) :
    digitsToNat l < 10 ^ l.length := by
  induction l with
  | nil => simp [digitsToNat]
  | cons c cs ih =>
    rw [digitsToNat_cons]
    have hd : c.toNat - 48 ≤ 9 := by
      have h0 := h c (List.mem_cons_self _ _)
      unfold isDigitChar at h0
      simp at h0
      omega
    have hcs := ih (fun x hx => h x (List.mem_cons_of_mem _ hx))
    have hpow : 10 ^ (c :: cs).length = 10 * 10 ^ cs.length := by
      rw [List.length_cons, pow_succ]
      ring
    rw [hpow]
    have : (c.toNat - 48) * 10 ^ cs.length ≤ 9 * 10 ^ cs.length :=
      Nat.mul_le_mul_right _ hd
    omega

/-- Lexicographic order on equal-length digit strings is numeric order. -/
theorem digitsToNat_lt_of_listLt {a b : List Char}
    (hlen : a.length = b.length)
    (ha : ∀ c ∈ a, isDigitChar c = true) (hb : ∀ c ∈ b, isDigitChar c = true)
    (hlt : listLt a b = true) : digitsToNat a < digitsToNat b := by
  induction a generalizing b with
  | nil =>
    cases b with
    | nil => simp [listLt] at hlt
    | cons y bs => simp at hlen
  | cons x as ih =>
    cases b with
    | nil => simp at hlen
    | cons y bs =>
      have hlen' : as.length = bs.length := by simpa using hlen
      rw [listLt_cons_iff] at hlt
      rw [digitsToNat_cons, digitsToNat_cons, ← hlen']
      have hx48 : 48 ≤ x.toNat ∧ x.toNat ≤ 57 := by
        have h0 := ha x (List.mem_cons_self _ _)
        unfold isDigitChar at h0
        simp at h0
        omega
      have hy48 : 48 ≤ y.toNat ∧ y.toNat ≤ 57 := by
        have h0 := hb y (List.mem_cons_self _ _)
        unfold isDigitChar at h0
        simp at h0
        omega
      have hA : digitsToNat as < 10 ^ as.length :=
        digitsToNat_lt as (fun c hc => ha c (List.mem_cons_of_mem _ hc))
      rcases hlt with h1 | ⟨h1, h2⟩
      · have hdx : x.toNat - 48 + 1 ≤ y.toNat - 48 := by omega
        calc (x.toNat - 48) * 10 ^ as.length + digitsToNat as
            < (x.toNat - 48) * 10 ^ as.length + 10 ^ as.length := by omega
          _ = (x.toNat - 48 + 1) * 10 ^ as.length := by ring
          _ ≤ (y.toNat - 48) * 10 ^ as.length :=
              Nat.mul_le_mul_right _ hdx
          _ ≤ (y.toNat - 48) * 10 ^ as.length + digitsToNat bs :=
              Nat.le_add_right _ _
      · have htail : digitsToNat as < digitsToNat bs :=
          ih hlen' (fun c hc => ha c (List.mem_cons_of_mem _ hc))
            (fun c hc => hb c (List.mem_cons_of_mem _ hc)) h2
        have hdeq : x.toNat - 48 = y.toNat - 48 := by omega
        rw [hdeq]
        omega

/-- The printer emits only digits, prints the value back, and is never
empty. -/
theorem natDigitsAux_spec (fuel n : Nat) (h : n < fuel) :
    (∀ c ∈ natDigitsAux fuel n, isDigitChar c = true) ∧
    digitsToNat (natDigitsAux fuel n) = n ∧
    natDigitsAux fuel n ≠ [] := by
  induction fuel generalizing n with
  | zero => omega
  | succ f ih =>
    show _ ∧ _ ∧ _
    rw [natDigitsAux]
    by_cases h10 : n < 10
    · rw [if_pos h10]
      refine ⟨?_, ?_, by simp⟩
      · intro c hc
        rw [List.mem_singleton] at hc
        subst hc
        have hval : (Char.ofNat (48 + n)).toNat = 48 + n := by
          have hv : Nat.isValidChar (48 + n) := Or.inl (by omega)
          rw [Char.ofNat, dif_pos hv]
          rfl
        unfold isDigitChar
        rw [hval]
        simp
        omega
      · have hval : (Char.ofNat (48 + n)).toNat = 48 + n := by
          have hv : Nat.isValidChar (48 + n) := Or.inl (by omega)
          rw [Char.ofNat, dif_pos hv]
          rfl
        rw [digitsToNat_cons, hval]
        simp [digitsToNat]
    · rw [if_neg h10]
      have hrec := ih (n / 10) (by omega)
      have hval : (Char.ofNat (48 + n % 10)).toNat = 48 + n % 10 := by
        have hv : Nat.isValidChar (48 + n % 10) := Or.inl (by omega)
        rw [Char.ofNat, dif_pos hv]
        rfl
      refine ⟨?_, ?_, by simp⟩
      · intro c hc
        rcases List.mem_append.mp hc with hc | hc
        · exact hrec.1 c hc
        · rw [List.mem_singleton] at hc
          subst hc
          unfold isDigitChar
          rw [hval]
          simp
          omega
      · show List.foldl _ _ (_ ++ [_]) = n
        rw [List.foldl_append]
        show List.foldl _ _ [_] = n
        rw [List.foldl_cons]
        show (10 * digitsToNat (natDigitsAux f (n / 10))
          + ((Char.ofNat (48 + n % 10)).toNat - 48)) = n
        rw [hrec.2.1, hval]
        omega

/-- Printed numbers below `10 ^ k` take at most `k` digits. -/
theorem natDigitsAux_length_le (fuel n k : Nat) (h : n < fuel) (hk : 1 ≤ k)
    (hn : n < 10 ^ k) : (natDigitsAux fuel n).length ≤ k := by
  induction fuel generalizing n k with
  | zero => omega
  | succ f ih =>
    rw [natDigitsAux]
    by_cases h10 : n < 10
    · rw [if_pos h10]
      simpa using hk
    · rw [if_neg h10]
      have hk2 : 2 ≤ k := by
        by_contra hlt
        have hk1 : k = 1 := by omega
        subst hk1
        simp at hn
        omega
      have hpow : 10 * 10 ^ (k - 1) = 10 ^ k := by
        have hks : k - 1 + 1 = k := by omega
        conv_rhs => rw [← hks]
        rw [pow_succ]
        ring
      have hdiv : n / 10 < 10 ^ (k - 1) := by omega
      have hl := ih (n / 10) (k - 1) (by omega) (by omega) hdiv
      rw [List.length_append]
      simp
      omega

/-- All characters of `natDigits n` are digits. -/
theorem natDigits_digits (n : Nat) :
    ∀ c ∈ natDigits n, isDigitChar c = true :=
  (natDigitsAux_spec (n + 1) n (Nat.lt_succ_self n)).1

/-- `natDigits` prints the value back. -/
theorem natDigits_value (n : Nat) : digitsToNat (natDigits n) = n :=
  (natDigitsAux_spec (n + 1) n (Nat.lt_succ_self n)).2.1

/-- Leading zeros do not change a digit string's value. -/
theorem digitsToNat_zeros (k : Nat) (l : List Char) :
    digitsToNat (List.replicate k '0' ++ l) = digitsToNat l := by
  induction k with
  | zero => rfl
  | succ k' ih =>
    rw [List.replicate_succ, List.cons_append]
    show List.foldl _ _ _ = _
    rw [List.foldl_cons]
    exact ih

/-- All characters of the zero-padded rendering are digits. -/
theorem pad5_digits (n : Nat) : ∀ c ∈ pad5 n, isDigitChar c = true := by
  intro c hc
  rcases List.mem_append.mp hc with hc | hc
  · rw [List.eq_of_mem_replicate hc]
    decide
  · exact natDigits_digits n c hc

/-- The zero-padded rendering prints the value back. -/
theorem pad5_value (n : Nat) : digitsToNat (pad5 n) = n := by
  unfold pad5
  rw [digitsToNat_zeros]
  exact natDigits_value n

/-- Below 100000 the padded rendering is exactly five characters. -/
theorem pad5_length (n : Nat) (h : n < 100000) : (pad5 n).length = 5 := by
  have hle : (natDigits n).length ≤ 5 :=
    natDigitsAux_length_le (n + 1) n 5 (Nat.lt_succ_self n) (by omega)
      (by omega)
  unfold pad5
  rw [List.length_append, List.length_replicate]
  omega

/-- `takeWhile` stops exactly at the first failing element. -/
theorem takeWhile_append_stop {p : Char → Bool} {a : List Char} {x : Char}
    {b : List Char} (ha : ∀ c ∈ a, p c = true) (hx : p x = false) :
    (a ++ x :: b).takeWhile p = a := by
  induction a with
  | nil => simp [List.takeWhile_cons, hx]
  | cons c cs ih =>
    have hc := ha c (List.mem_cons_self _ _)
    rw [List.cons_append, List.takeWhile_cons, hc]
    simp [ih (fun u hu => ha u (List.mem_cons_of_mem _ hu))]

/-- `split("-")[-1]` of a string laid out as `junk ++ "-" ++ digits` is the
digits. -/
theorem afterLastDash_append {xs d : List Char} (hd : ∀ c ∈ d, ¬ c = '-') :
    afterLastDash (xs ++ '-' :: d) = d := by
  unfold afterLastDash
  rw [List.reverse_append, List.reverse_cons, List.append_assoc]
  have hstop : ((d.reverse ++ ['-'] ++ xs.reverse).takeWhile
      (fun c => c != '-')) = d.reverse := by
    rw [List.append_assoc]
    exact takeWhile_append_stop
      (fun c hc => bne_iff_ne.mpr (hd c (List.mem_reverse.mp hc)))
      (by decide)
  rw [← List.append_assoc, hstop, List.reverse_reverse]

/-- `toList` distributes over string append. -/
theorem strToList_append (s t : String) :
    (s ++ t).toList = s.toList ++ t.toList :=
  String.data_append s t

/-- Strings with the same characters are equal. -/
theorem string_eq_of_toList_eq {s t : String} (h : s.toList = t.toList) :
    s = t := by
  cases s
  cases t
  exact congrArg String.mk h

/-- A string extended past `p` starts with `p`. -/
theorem strStartsWith_of_append (p rest : String) :
    strStartsWith (p ++ rest) p = true := by
  unfold strStartsWith
  rw [strToList_append]
  exact List.isPrefixOf_iff_prefix.mpr (List.prefix_append _ _)

/-- A string that starts with `p` splits into `p` and its suffix. -/
theorem strStartsWith_toList {s p : String}
    (h : strStartsWith s p = true) :
    s.toList = p.toList ++ s.toList.drop p.toList.length := by
  unfold strStartsWith at h
  exact (List.prefix_iff_eq_append.mp (List.isPrefixOf_iff_prefix.mp h)).symm

/-- `int()` on a non-empty all-digit string parses its value. -/
theorem pyInt?_digits {d : List Char} (hne : d ≠ [])
    (hdig : ∀ c ∈ d, isDigitChar c = true) :
    pyInt? d = some (digitsToNat d) := by
  have h1 : d.isEmpty = false := by simp [List.isEmpty_iff, hne]
  have h2 : d.all isDigitChar = true := List.all_eq_true.mpr hdig
  unfold pyInt?
  rw [h1, h2]
  simp

/-- The generator's anchor pattern ends with a dash. -/
theorem pattern_toList (pre ym : String) :
    (pre ++ "-" ++ ym ++ "-").toList
      = (pre ++ "-" ++ ym).toList ++ ['-'] := by
  rw [strToList_append]
  rfl

/-- C8 (amended): as long as every `item_id` matching the month's anchor
has a five-character all-digit suffix (true for the first 99999 ids of a
month), each `generate_lead_id` call parses the lexicographic maximum,
adds one, and returns an identifier that has never been used and whose
numeric suffix strictly exceeds every existing matching suffix. Once a
six-digit suffix exists the lexicographic maximum no longer is the numeric
maximum and the call repeats an existing id (see the counterexample), so
the 5-digit hypothesis is exactly what the counterexample forces. -/
theorem C8_generated_id_fresh_while_suffixes_are_five_digits
    (existing : List String) (pre ym : String)
    (h5 : ∀ s ∈ existing, strStartsWith s (pre ++ "-" ++ ym ++ "-") = true →
      (s.toList.drop (pre ++ "-" ++ ym ++ "-").toList.length).length = 5 ∧
      ∀ c ∈ s.toList.drop (pre ++ "-" ++ ym ++ "-").toList.length,
        isDigitChar c = true)
    (newId : String)
    (hgen : generate_lead_id existing pre ym = some newId) :
    newId ∉ existing ∧
    ∀ s ∈ existing, strStartsWith s (pre ++ "-" ++ ym ++ "-") = true →
      digitsToNat (s.toList.drop (pre ++ "-" ++ ym ++ "-").toList.length)
        < digitsToNat (newId.toList.drop (pre ++ "-" ++ ym ++ "-").toList.length) := by
  unfold generate_lead_id at hgen
  cases hmax : maxStr (existing.filter
      (fun s => strStartsWith s (pre ++ "-" ++ ym ++ "-"))) with
  | none =>
    rw [hmax] at hgen
    have hempty : existing.filter
        (fun s => strStartsWith s (pre ++ "-" ++ ym ++ "-")) = [] :=
      maxStr_eq_none hmax
    have hpatmem : ∀ s ∈ existing,
        strStartsWith s (pre ++ "-" ++ ym ++ "-") = true → False := by
      intro s hs hstart
      have hmemf : s ∈ existing.filter
          (fun s => strStartsWith s (pre ++ "-" ++ ym ++ "-")) :=
        List.mem_filter.mpr ⟨hs, hstart⟩
      rw [hempty] at hmemf
      cases hmemf
    have hgen' : (Option.some ((pre ++ "-" ++ ym ++ "-") ++ String.mk (pad5 1)))
        = some newId := hgen
    have hnew : newId = (pre ++ "-" ++ ym ++ "-") ++ String.mk (pad5 1) :=
      (Option.some.inj hgen').symm
    constructor
    · intro hmem
      exact hpatmem newId hmem (hnew ▸ strStartsWith_of_append _ _)
    · intro s hs hstart
      exact (hpatmem s hs hstart).elim
  | some m =>
    rw [hmax] at hgen
    have hmemf := maxStr_mem hmax
    obtain ⟨hmE, hmStart⟩ := List.mem_filter.mp hmemf
    obtain ⟨hdm5, hdmdig⟩ := h5 m hmE hmStart
    set dm := m.toList.drop (pre ++ "-" ++ ym ++ "-").toList.length with hdmdef
    have hmdec : m.toList = (pre ++ "-" ++ ym ++ "-").toList ++ dm :=
      strStartsWith_toList hmStart
    have hald : afterLastDash m.toList = dm := by
      rw [hmdec, pattern_toList, List.append_assoc, List.singleton_append]
      exact afterLastDash_append (fun c hc hce => by
        have h0 := hdmdig c hc
        rw [hce] at h0
        exact absurd h0 (by decide))
    have hdne : dm ≠ [] := by
      intro hnil
      rw [hnil] at hdm5
      simp at hdm5
    have hpy : pyInt? (afterLastDash m.toList) = some (digitsToNat dm) := by
      rw [hald]
      exact pyInt?_digits hdne hdmdig
    have hgen2 : (match pyInt? (afterLastDash m.toList) with
        | Option.none => (Option.none : Option String)
        | some last_num =>
          some ((pre ++ "-" ++ ym ++ "-") ++ String.mk (pad5 (last_num + 1))))
        = some newId := hgen
    rw [hpy] at hgen2
    have hgen' : (Option.some ((pre ++ "-" ++ ym ++ "-")
        ++ String.mk (pad5 (digitsToNat dm + 1)))) = some newId := hgen2
    have hnew : newId = (pre ++ "-" ++ ym ++ "-")
        ++ String.mk (pad5 (digitsToNat dm + 1)) := (Option.some.inj hgen').symm
    have hnewtl : newId.toList = (pre ++ "-" ++ ym ++ "-").toList
        ++ pad5 (digitsToNat dm + 1) := by
      rw [hnew, strToList_append]
      rfl
    have hnewdrop : newId.toList.drop (pre ++ "-" ++ ym ++ "-").toList.length
        = pad5 (digitsToNat dm + 1) := by
      rw [hnewtl]
      exact List.drop_left _ _
    have hnlt : digitsToNat dm < 100000 := by
      have hbound := digitsToNat_lt _ hdmdig
      rw [hdm5] at hbound
      have h105 : (10 : Nat) ^ 5 = 100000 := by norm_num
      omega
    have hnewval : digitsToNat
        (newId.toList.drop (pre ++ "-" ++ ym ++ "-").toList.length)
        = digitsToNat dm + 1 := by
      rw [hnewdrop]
      exact pad5_value _
    constructor
    · intro hmem
      have hstart : strStartsWith newId (pre ++ "-" ++ ym ++ "-") = true := by
        rw [hnew]
        exact strStartsWith_of_append _ _
      obtain ⟨hlen5', _⟩ := h5 newId hmem hstart
      rw [hnewdrop] at hlen5'
      by_cases hc : digitsToNat dm + 1 < 100000
      · have hmaxlt : strLt m newId = false := maxStr_not_lt hmax newId
          (List.mem_filter.mpr ⟨hmem, hstart⟩)
        have hlt : listLt m.toList newId.toList = true := by
          rw [hmdec, hnewtl, listLt_append_left]
          by_cases hL : listLt dm (pad5 (digitsToNat dm + 1)) = true
          · exact hL
          · exfalso
            by_cases hR : listLt (pad5 (digitsToNat dm + 1)) dm = true
            · have hv := digitsToNat_lt_of_listLt
                (by rw [pad5_length _ hc, hdm5]) (pad5_digits _) hdmdig hR
              rw [pad5_value] at hv
              omega
            · have heq := listLt_eq_of_not_lt (boolNotTrue hL) (boolNotTrue hR)
              have hv := congrArg digitsToNat heq
              rw [pad5_value] at hv
              omega
        have hsl : strLt m newId = true := hlt
        rw [hmaxlt] at hsl
        cases hsl
      · have hn99 : digitsToNat dm + 1 = 100000 := by omega
        rw [hn99] at hlen5'
        have hsix : (pad5 100000).length = 6 := by rfl
        omega
    · intro s hs hstart_s
      obtain ⟨hs5, hsdig⟩ := h5 s hs hstart_s
      set ds := s.toList.drop (pre ++ "-" ++ ym ++ "-").toList.length with hdsdef
      have hsdec : s.toList = (pre ++ "-" ++ ym ++ "-").toList ++ ds :=
        strStartsWith_toList hstart_s
      have hmaxlt : strLt m s = false := maxStr_not_lt hmax s
        (List.mem_filter.mpr ⟨hs, hstart_s⟩)
      have hmls : listLt m.toList s.toList = false := hmaxlt
      rw [hmdec, hsdec, listLt_append_left] at hmls
      have hle : digitsToNat ds ≤ digitsToNat dm := by
        by_cases hL : listLt ds dm = true
        · have hv := digitsToNat_lt_of_listLt (by rw [hs5, hdm5]) hsdig hdmdig hL
          omega
        · have heq := listLt_eq_of_not_lt (boolNotTrue hL) hmls
          rw [heq]
      rw [hnewval]
      omega

/-- Counterexample to C8 as stated: once the month's counter passes 99999
the lexicographic maximum is no longer the numeric maximum — with
`…-99999` and `…-100000` present, the generator picks `…-99999` as the
"greatest" id and produces `…-100000`, which is already in use; inserting
it and calling again produces the very same id, so sequentially produced
ids are neither never-before-used nor pairwise distinct. This state is
exactly the one the generator itself reaches after 100000 sequential
creations in one month. -/
theorem C8_counterexample :
    generate_lead_id ["LEAD-202510-99999", "LEAD-202510-100000"]
        "LEAD" "202510"
      = some "LEAD-202510-100000" ∧
    "LEAD-202510-100000" ∈ ["LEAD-202510-99999", "LEAD-202510-100000"] ∧
    generate_lead_id
        ["LEAD-202510-100000", "LEAD-202510-99999", "LEAD-202510-100000"]
        "LEAD" "202510"
      = some "LEAD-202510-100000" := by
  refine ⟨?_, by decide, ?_⟩ <;> rfl

/-- Witness for C8 (amended): with only `…-00001` present the generator
yields the fresh id `…-00002`, whose numeric suffix exceeds the existing
one. -/
theorem C8_witness :
    ("LEAD-202510-00002" ∉ ["LEAD-202510-00001"]) ∧
    digitsToNat (("LEAD-202510-00001").toList.drop
        (("LEAD" ++ "-" ++ "202510" ++ "-").toList.length))
      < digitsToNat (("LEAD-202510-00002").toList.drop
        (("LEAD" ++ "-" ++ "202510" ++ "-").toList.length)) := by
  have h := C8_generated_id_fresh_while_suffixes_are_five_digits
    ["LEAD-202510-00001"] "LEAD" "202510" (by decide)
    "LEAD-202510-00002" (by rfl)
  exact ⟨h.1, h.2 "LEAD-202510-00001" (by decide) (by decide)⟩

end Funnel
